import Mathlib

/-!
Shallow embedding of `scripts/algolia.ts`, the Algolia synchronization script of
the documentation site.  The external collaborators (the record generator
`htmlToAlgoliaRecord`, the file system, the Algolia index client) are modelled
as explicit parameters; the script's own logic (eligibility filtering,
per-document error policy, upload, enumeration of existing identifiers,
stale-record deletion, configuration checks) is translated directly from the
source.  Remote calls are recorded in an operation trace, console output in a
log list, so that ordering and frame properties can be stated.
-/

namespace AlgoliaSync

/-- Front matter of a documentation page (`FrontMatter` from `src/types`):
slug, optional title, `draft` / `noindex` flags, keywords.  In the source the
flags and the title may be `undefined`; falsy values are modelled as `false`
resp. `none` / the empty string. -/
structure FrontMatter where
  slug : String
  title : Option String
  draft : Bool
  noindex : Bool
  keywords : List String
deriving DecidableEq, Repr

/-- A search record produced by the external generator.  Its shape is owned by
`@sentry-internal/global-search`; only its identity matters here. -/
structure AlgoliaRecord where
  payload : String
deriving DecidableEq, Repr

/-- Console output of the script (only the messages claims refer to). -/
inductive LogMsg where
  | processing (slug : String)
  | errorSkipped (slug : String) (msg : String)
deriving DecidableEq, Repr

/-- A remote call against the Algolia index: `browseObjects`, `saveObjects`,
`deleteObjects`. -/
inductive RemoteOp where
  | browse
  | saveObjects (ids : List String)
  | deleteObjects (ids : List String)
deriving DecidableEq, Repr

/-- Is the operation a bulk upload (`saveObjects`)? -/
def RemoteOp.isSave : RemoteOp → Bool
  | .saveObjects _ => true
  | _ => false

/-- JavaScript truthiness of an optional environment string: `undefined` and
the empty string are falsy (`!ALGOLIA_APP_ID`, `frontMatter.title`). -/
def truthy : Option String → Bool
  | none => false
  | some s => !s.isEmpty

/-- `ALOGOLIA_SKIP_ON_ERROR = process.env.ALOGOLIA_SKIP_ON_ERROR === 'true'`
(line 42): the flag is on exactly when the variable holds the string
`"true"`. -/
def skipOnErrorFlag (v : Option String) : Bool := v == some "true"

/-- The environment `getRecords` runs in: the static HTML files (keyed by
path), the external record generator `htmlToAlgoliaRecord` (which may fail),
and the `ALOGOLIA_SKIP_ON_ERROR` policy flag. -/
structure Env where
  fs : List (String × String)
  gen : FrontMatter → String → Except String (List AlgoliaRecord)
  skipOnError : Bool

/-- `join(staticHtmlFilesPath, pageFm.slug + '.html')` with the constant
directory prefix dropped (it is common to every lookup). -/
def htmlPath (slug : String) : String := slug ++ ".html"

/-- `fs.readFileSync`: `some` content when the file exists, otherwise the
read throws (modelled as `none`). -/
def readFile (fsFiles : List (String × String)) (path : String) : Option String :=
  (fsFiles.find? (fun p => p.1 == path)).map (fun p => p.2)

/-- Outcome of `getRecords` on one document: its console output, the documents
it actually passed to the external generator, and its records or error. -/
structure DocResult where
  logs : List LogMsg
  genCalls : List FrontMatter
  result : Except String (List AlgoliaRecord)
deriving Repr

/-- `getRecords` (lines 118-146): log `processing:`, read the page's HTML,
call the generator; any failure is caught, and either logged and turned into
zero records (`ALOGOLIA_SKIP_ON_ERROR`) or rethrown. -/
def getRecords (env : Env) (pageFm : FrontMatter) : DocResult :=
  let log0 := [LogMsg.processing pageFm.slug]
  match readFile env.fs (htmlPath pageFm.slug) with
  | none =>
    let msg := "Error processing " ++ pageFm.slug ++ ": ENOENT " ++ htmlPath pageFm.slug
    if env.skipOnError then
      ⟨log0 ++ [LogMsg.errorSkipped pageFm.slug msg], [], .ok []⟩
    else
      ⟨log0, [], .error msg⟩
  | some html =>
    match env.gen pageFm html with
    | .ok pageRecords => ⟨log0, [pageFm], .ok pageRecords⟩
    | .error e =>
      let msg := "Error processing " ++ pageFm.slug ++ ": " ++ e
      if env.skipOnError then
        ⟨log0 ++ [LogMsg.errorSkipped pageFm.slug msg], [pageFm], .ok []⟩
      else
        ⟨log0, [pageFm], .error msg⟩

/-- The filter of `generateAlogliaRecords` (line 110):
`!frontMatter.draft && !frontMatter.noindex && frontMatter.title`. -/
def eligible (frontMatter : FrontMatter) : Bool :=
  !frontMatter.draft && !frontMatter.noindex && truthy frontMatter.title

/-- `Promise.all` over the per-document results followed by `.flat()`:
the first rejection rejects the whole batch, otherwise the record lists are
concatenated in document order. -/
def collectResults : List DocResult → Except String (List AlgoliaRecord)
  | [] => .ok []
  | r :: rs =>
    match r.result with
    | .error e => .error e
    | .ok recs => (collectResults rs).map (fun rest => recs ++ rest)

/-- The records a single document contributes (its generator output, or `[]`
when its processing failed). -/
def docRecords (env : Env) (fm : FrontMatter) : List AlgoliaRecord :=
  match (getRecords env fm).result with
  | .ok recs => recs
  | .error _ => []

/-- Outcome of `generateAlogliaRecords`: console output, generator
invocations, and the collected records or the first error. -/
structure GenResult where
  logs : List LogMsg
  genCalls : List FrontMatter
  result : Except String (List AlgoliaRecord)
deriving Repr

/-- `generateAlogliaRecords` (lines 106-116, source spelling kept): filter out
draft / noindex / untitled pages, run `getRecords` on every remaining page,
await all, flatten. -/
def generateAlogliaRecords (env : Env) (pageFrontMatters : List FrontMatter) : GenResult :=
  let results := (pageFrontMatters.filter eligible).map (getRecords env)
  { logs := (results.map DocResult.logs).flatten
    genCalls := (results.map DocResult.genCalls).flatten
    result := collectResults results }

/-- `fetchExistingRecordIds` (lines 92-104): browse the index collecting the
object identifiers into a `Set`, return them as an array (each identifier
once). -/
def fetchExistingRecordIds (remote : List String) : List String := remote.dedup

/-- Outcome of one `indexAndUpload` run: final result, the remote index's
identifier set afterwards, the remote-call trace, console output, generator
invocations, and the identifier lists the run computed (`saveResult.objectIDs`
and `recordsToDelete`). -/
structure RunResult where
  result : Except String Unit
  remote : List String
  ops : List RemoteOp
  logs : List LogMsg
  genCalls : List FrontMatter
  savedIds : List String
  staleIds : List String
deriving Repr

/-- `indexAndUpload` (lines 58-90): generate the records, fetch the existing
identifiers (a `browseObjects` call), `saveObjects` the records (the index
assigns identifiers via `assignId`, an upsert), diff the existing identifiers
against the newly saved ones, and `deleteObjects` the stale remainder unless
it is empty.  A generation error rejects the run before any remote call. -/
def indexAndUpload (env : Env) (assignId : AlgoliaRecord → String)
    (pageFrontMatters : List FrontMatter) (remote0 : List String) : RunResult :=
  let gr := generateAlogliaRecords env pageFrontMatters
  match gr.result with
  | .error e => ⟨.error e, remote0, [], gr.logs, gr.genCalls, [], []⟩
  | .ok records =>
    let existingRecordIds := fetchExistingRecordIds remote0
    let savedIds := records.map assignId
    let remoteAfterSave := remote0 ++ savedIds.filter (fun id => decide (id ∉ remote0))
    let recordsToDelete := existingRecordIds.filter (fun id => decide (id ∉ savedIds))
    if recordsToDelete.isEmpty then
      ⟨.ok (), remoteAfterSave, [.browse, .saveObjects savedIds],
        gr.logs, gr.genCalls, savedIds, recordsToDelete⟩
    else
      ⟨.ok (), remoteAfterSave.filter (fun id => decide (id ∉ recordsToDelete)),
        [.browse, .saveObjects savedIds, .deleteObjects recordsToDelete],
        gr.logs, gr.genCalls, savedIds, recordsToDelete⟩

/-- The whole script's inputs: the three required configuration variables, the
`ALOGOLIA_SKIP_ON_ERROR` variable, and the collaborators `indexAndUpload`
needs. -/
structure ScriptEnv where
  appId : Option String
  apiKey : Option String
  indexName : Option String
  skipVar : Option String
  fs : List (String × String)
  gen : FrontMatter → String → Except String (List AlgoliaRecord)
  fms : List FrontMatter
  assignId : AlgoliaRecord → String
  remote0 : List String

/-- Observable outcome of the whole script run. -/
structure ScriptResult where
  result : Except String Unit
  clientConstructed : Bool
  ops : List RemoteOp
  logs : List LogMsg
  genCalls : List FrontMatter
  remote : List String
deriving Repr

/-- The script's top level (lines 38-57): check the three required
configuration variables in order and throw before constructing the Algolia
client if one is missing (JS truthiness), otherwise construct the client and
run `indexAndUpload`. -/
def runScript (se : ScriptEnv) : ScriptResult :=
  if !truthy se.appId then
    ⟨.error "ALGOLIA_APP_ID env var must be configured in repo secrets",
      false, [], [], [], se.remote0⟩
  else if !truthy se.apiKey then
    ⟨.error "ALGOLIA_API_KEY env var must be configured in repo secrets",
      false, [], [], [], se.remote0⟩
  else if !truthy se.indexName then
    ⟨.error "DOCS_INDEX_NAME env var must be configured in repo secrets",
      false, [], [], [], se.remote0⟩
  else
    let env : Env := ⟨se.fs, se.gen, skipOnErrorFlag se.skipVar⟩
    let run := indexAndUpload env se.assignId se.fms se.remote0
    ⟨run.result, true, run.ops, run.logs, run.genCalls, run.remote⟩

/-- Does processing this document fail (missing HTML artifact, or the external
generator fails on it)? -/
def docFails (env : Env) (fm : FrontMatter) : Bool :=
  match readFile env.fs (htmlPath fm.slug) with
  | none => true
  | some html =>
    match env.gen fm html with
    | .ok _ => false
    | .error _ => true

/-- Is the document's pre-rendered HTML artifact on disk? -/
def artifactPresent (env : Env) (fm : FrontMatter) : Bool :=
  (readFile env.fs (htmlPath fm.slug)).isSome

/-- The records of one `DocResult` (`[]` when it failed). -/
def DocResult.records (r : DocResult) : List AlgoliaRecord :=
  match r.result with
  | .ok recs => recs
  | .error _ => []

/- Concrete fixtures, following the spec's worked example: page `a` is
eligible and present, page `b` is a draft, page `c` has no HTML artifact. -/

def fmA : FrontMatter := ⟨"a", some "A", false, false, []⟩

def fmB : FrontMatter := ⟨"b", some "B", true, false, []⟩

def fmC : FrontMatter := ⟨"c", some "C", false, false, []⟩

def exGen : FrontMatter → String → Except String (List AlgoliaRecord) :=
  fun fm _ => .ok [⟨fm.slug ++ "-1"⟩]

def exFs : List (String × String) := [("a.html", "<main>A</main>")]

def exAssign : AlgoliaRecord → String := fun r => r.payload

def exEnv : Env := ⟨exFs, exGen, false⟩

def exEnvSkip : Env := ⟨exFs, exGen, true⟩

/-! ### Helper lemmas about `getRecords` -/

lemma getRecords_result_of_skip (env : Env) (fm : FrontMatter)
    (h : env.skipOnError = true) : ∃ v, (getRecords env fm).result = .ok v := by
  unfold getRecords
  cases hre : readFile env.fs (htmlPath fm.slug) with
  | none => simp [h]
  | some html =>
    cases hgen : env.gen fm html with
    | ok recs => simp [hgen]
    | error e => simp [hgen, h]

lemma getRecords_error_of_fails (env : Env) (fm : FrontMatter)
    (hskip : env.skipOnError = false) (hfail : docFails env fm = true) :
    ∃ e, (getRecords env fm).result = .error e := by
  unfold getRecords
  unfold docFails at hfail
  cases hre : readFile env.fs (htmlPath fm.slug) with
  | none => simp [hskip]
  | some html =>
    rw [hre] at hfail
    cases hgen : env.gen fm html with
    | ok recs => simp [hgen] at hfail
    | error e => simp [hgen, hskip]

lemma getRecords_of_not_fails (env : Env) (fm : FrontMatter)
    (hfail : docFails env fm = false) :
    (getRecords env fm).result = .ok (docRecords env fm) ∧
      (getRecords env fm).genCalls = [fm] := by
  unfold docFails at hfail
  unfold docRecords getRecords
  cases hre : readFile env.fs (htmlPath fm.slug) with
  | none => rw [hre] at hfail; simp at hfail
  | some html =>
    rw [hre] at hfail
    cases hgen : env.gen fm html with
    | ok recs => simp [hgen]
    | error e => simp [hgen] at hfail

lemma getRecords_genCalls_eq (env : Env) (fm : FrontMatter) :
    ∀ x ∈ (getRecords env fm).genCalls, x = fm := by
  unfold getRecords
  cases hre : readFile env.fs (htmlPath fm.slug) with
  | none => cases hsk : env.skipOnError <;> simp [hsk]
  | some html =>
    cases hgen : env.gen fm html with
    | ok recs => simp [hgen]
    | error e => cases hsk : env.skipOnError <;> simp [hgen, hsk]

lemma getRecords_skip_fails (env : Env) (fm : FrontMatter)
    (hskip : env.skipOnError = true) (hfail : docFails env fm = true) :
    (getRecords env fm).result = .ok [] ∧
      ∃ msg, LogMsg.errorSkipped fm.slug msg ∈ (getRecords env fm).logs := by
  unfold docFails at hfail
  unfold getRecords
  cases hre : readFile env.fs (htmlPath fm.slug) with
  | none => simp [hskip]
  | some html =>
    rw [hre] at hfail
    cases hgen : env.gen fm html with
    | ok recs => simp [hgen] at hfail
    | error e => simp [hgen, hskip]

/-! ### Helper lemmas about `collectResults` and `generateAlogliaRecords` -/

lemma collectResults_error_of_mem {rs : List DocResult} {r : DocResult} {e : String}
    (hmem : r ∈ rs) (herr : r.result = .error e) :
    ∃ e2, collectResults rs = .error e2 := by
  induction rs with
  | nil => simp at hmem
  | cons hd tl ih =>
    rcases List.mem_cons.1 hmem with h | h
    · subst h
      exact ⟨e, by simp [collectResults, herr]⟩
    · rcases ih h with ⟨e2, he2⟩
      unfold collectResults
      cases hhd : hd.result with
      | error e3 => exact ⟨e3, rfl⟩
      | ok recs => exact ⟨e2, by simp [he2, Except.map]⟩

lemma collectResults_ok {rs : List DocResult}
    (h : ∀ r ∈ rs, ∃ v, r.result = .ok v) :
    collectResults rs = .ok ((rs.map DocResult.records).flatten) := by
  induction rs with
  | nil => simp [collectResults]
  | cons hd tl ih =>
    rcases h hd (List.mem_cons_self hd tl) with ⟨v, hv⟩
    have htl := ih (fun r hr => h r (List.mem_cons_of_mem hd hr))
    simp [collectResults, hv, htl, DocResult.records, Except.map]

lemma gen_logs_eq (env : Env) (fms : List FrontMatter) :
    (generateAlogliaRecords env fms).logs =
      (((fms.filter eligible).map (getRecords env)).map DocResult.logs).flatten := rfl

lemma gen_genCalls_eq (env : Env) (fms : List FrontMatter) :
    (generateAlogliaRecords env fms).genCalls =
      (((fms.filter eligible).map (getRecords env)).map DocResult.genCalls).flatten := rfl

lemma gen_result_eq (env : Env) (fms : List FrontMatter) :
    (generateAlogliaRecords env fms).result =
      collectResults ((fms.filter eligible).map (getRecords env)) := rfl

lemma gen_error_of_failing_doc (env : Env) (fms : List FrontMatter) (fm : FrontMatter)
    (hskip : env.skipOnError = false) (hmem : fm ∈ fms) (helig : eligible fm = true)
    (hfail : docFails env fm = true) :
    ∃ e, (generateAlogliaRecords env fms).result = .error e := by
  rcases getRecords_error_of_fails env fm hskip hfail with ⟨e, he⟩
  rw [gen_result_eq]
  exact collectResults_error_of_mem
    (List.mem_map_of_mem (getRecords env) (List.mem_filter.2 ⟨hmem, helig⟩)) he

/-! ### Helper lemmas about `indexAndUpload` -/

lemma indexAndUpload_of_gen_error (env : Env) (assignId : AlgoliaRecord → String)
    (fms : List FrontMatter) (remote0 : List String) (e : String)
    (h : (generateAlogliaRecords env fms).result = .error e) :
    indexAndUpload env assignId fms remote0 =
      ⟨.error e, remote0, [], (generateAlogliaRecords env fms).logs,
        (generateAlogliaRecords env fms).genCalls, [], []⟩ := by
  simp only [indexAndUpload, h]

lemma indexAndUpload_savedIds_of_gen_ok (env : Env) (assignId : AlgoliaRecord → String)
    (fms : List FrontMatter) (remote0 : List String) (records : List AlgoliaRecord)
    (h : (generateAlogliaRecords env fms).result = .ok records) :
    (indexAndUpload env assignId fms remote0).savedIds = records.map assignId := by
  simp only [indexAndUpload, h]
  split <;> rfl

lemma indexAndUpload_staleIds_of_gen_ok (env : Env) (assignId : AlgoliaRecord → String)
    (fms : List FrontMatter) (remote0 : List String) (records : List AlgoliaRecord)
    (h : (generateAlogliaRecords env fms).result = .ok records) :
    (indexAndUpload env assignId fms remote0).staleIds =
      (fetchExistingRecordIds remote0).filter
        (fun id => decide (id ∉ records.map assignId)) := by
  simp only [indexAndUpload, h]
  split <;> rfl

lemma indexAndUpload_result_of_gen_ok (env : Env) (assignId : AlgoliaRecord → String)
    (fms : List FrontMatter) (remote0 : List String) (records : List AlgoliaRecord)
    (h : (generateAlogliaRecords env fms).result = .ok records) :
    (indexAndUpload env assignId fms remote0).result = .ok () := by
  simp only [indexAndUpload, h]
  split <;> rfl

lemma indexAndUpload_ops_of_gen_ok (env : Env) (assignId : AlgoliaRecord → String)
    (fms : List FrontMatter) (remote0 : List String) (records : List AlgoliaRecord)
    (h : (generateAlogliaRecords env fms).result = .ok records) :
    (indexAndUpload env assignId fms remote0).ops =
      if ((fetchExistingRecordIds remote0).filter
            (fun id => decide (id ∉ records.map assignId))).isEmpty then
        [RemoteOp.browse, RemoteOp.saveObjects (records.map assignId)]
      else
        [RemoteOp.browse, RemoteOp.saveObjects (records.map assignId),
          RemoteOp.deleteObjects ((fetchExistingRecordIds remote0).filter
            (fun id => decide (id ∉ records.map assignId)))] := by
  simp only [indexAndUpload, h]
  split <;> simp [*]

lemma indexAndUpload_logs_eq (env : Env) (assignId : AlgoliaRecord → String)
    (fms : List FrontMatter) (remote0 : List String) :
    (indexAndUpload env assignId fms remote0).logs =
      (generateAlogliaRecords env fms).logs := by
  cases hgr : (generateAlogliaRecords env fms).result with
  | error e => simp only [indexAndUpload, hgr]
  | ok records => simp only [indexAndUpload, hgr]; split <;> rfl

lemma indexAndUpload_genCalls_eq (env : Env) (assignId : AlgoliaRecord → String)
    (fms : List FrontMatter) (remote0 : List String) :
    (indexAndUpload env assignId fms remote0).genCalls =
      (generateAlogliaRecords env fms).genCalls := by
  cases hgr : (generateAlogliaRecords env fms).result with
  | error e => simp only [indexAndUpload, hgr]
  | ok records => simp only [indexAndUpload, hgr]; split <;> rfl

lemma indexAndUpload_mem_remote_of_gen_ok (env : Env) (assignId : AlgoliaRecord → String)
    (fms : List FrontMatter) (remote0 : List String) (records : List AlgoliaRecord)
    (h : (generateAlogliaRecords env fms).result = .ok records) (id : String) :
    id ∈ (indexAndUpload env assignId fms remote0).remote ↔
      id ∈ records.map assignId := by
  simp only [indexAndUpload, h]
  split
  · rename_i hc
    have hsub : ∀ x ∈ remote0, x ∈ records.map assignId := by
      intro x hx
      by_contra hnx
      have hmem : x ∈ (fetchExistingRecordIds remote0).filter
          (fun id => decide (id ∉ records.map assignId)) := by
        refine List.mem_filter.2 ⟨?_, by simpa using hnx⟩
        simpa [fetchExistingRecordIds] using hx
      rw [List.isEmpty_iff] at hc
      rw [hc] at hmem
      simp at hmem
    have hid := hsub id
    simp only [List.mem_append, List.mem_filter, decide_eq_true_eq]
    tauto
  · rename_i hc
    simp only [List.mem_filter, List.mem_append, decide_eq_true_eq,
      fetchExistingRecordIds, List.mem_dedup]
    tauto

lemma gen_ok_of_run_ok (env : Env) (assignId : AlgoliaRecord → String)
    (fms : List FrontMatter) (remote0 : List String)
    (h : (indexAndUpload env assignId fms remote0).result = .ok ()) :
    ∃ records, (generateAlogliaRecords env fms).result = .ok records := by
  cases hgr : (generateAlogliaRecords env fms).result with
  | ok records => exact ⟨records, rfl⟩
  | error e =>
    rw [indexAndUpload_of_gen_error env assignId fms remote0 e hgr] at h
    simp at h

lemma gen_ok_of_skip (env : Env) (fms : List FrontMatter)
    (h : env.skipOnError = true) :
    (generateAlogliaRecords env fms).result =
      .ok (((fms.filter eligible).map (docRecords env)).flatten) := by
  rw [gen_result_eq]
  rw [collectResults_ok (fun r hr => by
    rcases List.mem_map.1 hr with ⟨fm, _, rfl⟩
    exact getRecords_result_of_skip env fm h)]
  rw [List.map_map]
  rfl

lemma flatten_eq_of_forall_singleton {α : Type} {l : List α} {f : α → List α}
    (h : ∀ a ∈ l, f a = [a]) : (l.map f).flatten = l := by
  induction l with
  | nil => rfl
  | cons hd tl ih =>
    simp only [List.map_cons, List.flatten_cons, h hd (List.mem_cons_self hd tl),
      ih (fun a ha => h a (List.mem_cons_of_mem hd ha))]
    rfl

lemma gen_genCalls_sub (env : Env) (fms : List FrontMatter) :
    ∀ fm ∈ (generateAlogliaRecords env fms).genCalls, fm ∈ fms.filter eligible := by
  intro fm hfm
  rw [gen_genCalls_eq] at hfm
  rcases List.mem_flatten.1 hfm with ⟨l, hl, hfml⟩
  rcases List.mem_map.1 hl with ⟨r, hr, rfl⟩
  rcases List.mem_map.1 hr with ⟨fm0, hfm0, rfl⟩
  rw [getRecords_genCalls_eq env fm0 fm hfml]
  exact hfm0

lemma gen_genCalls_of_all_ok (env : Env) (fms : List FrontMatter)
    (hall : ∀ fm ∈ fms.filter eligible, docFails env fm = false) :
    (generateAlogliaRecords env fms).genCalls = fms.filter eligible := by
  rw [gen_genCalls_eq, List.map_map]
  exact flatten_eq_of_forall_singleton
    (fun fm hfm => (getRecords_of_not_fails env fm (hall fm hfm)).2)

lemma gen_result_of_all_ok (env : Env) (fms : List FrontMatter)
    (hall : ∀ fm ∈ fms.filter eligible, docFails env fm = false) :
    (generateAlogliaRecords env fms).result =
      .ok (((fms.filter eligible).map (docRecords env)).flatten) := by
  have hok : ∀ r ∈ (fms.filter eligible).map (getRecords env), ∃ v, r.result = .ok v := by
    intro r hr
    rcases List.mem_map.1 hr with ⟨fm, hfm, rfl⟩
    exact ⟨docRecords env fm, (getRecords_of_not_fails env fm (hall fm hfm)).1⟩
  rw [gen_result_eq, collectResults_ok hok, List.map_map]
  rfl

lemma gen_logs_mem (env : Env) (fms : List FrontMatter) (fm : FrontMatter)
    (hmem : fm ∈ fms.filter eligible) {msg : LogMsg}
    (h : msg ∈ (getRecords env fm).logs) :
    msg ∈ (generateAlogliaRecords env fms).logs := by
  rw [gen_logs_eq]
  refine List.mem_flatten.2 ⟨(getRecords env fm).logs, ?_, h⟩
  exact List.mem_map_of_mem DocResult.logs (List.mem_map_of_mem (getRecords env) hmem)

/-! ### The claims -/

/-- C1: for every run that completes successfully, the set of identifiers
present in the remote index afterwards equals exactly the set of identifiers
returned by the bulk save: every saved identifier remains, and every
identifier that existed before the run but was not saved is deleted. -/
theorem C1_remote_equals_saved (env : Env) (assignId : AlgoliaRecord → String)
    (fms : List FrontMatter) (remote0 : List String)
    (h : (indexAndUpload env assignId fms remote0).result = .ok ()) :
    ∀ id, id ∈ (indexAndUpload env assignId fms remote0).remote ↔
      id ∈ (indexAndUpload env assignId fms remote0).savedIds := by
  rcases gen_ok_of_run_ok env assignId fms remote0 h with ⟨records, hgr⟩
  intro id
  rw [indexAndUpload_savedIds_of_gen_ok env assignId fms remote0 records hgr]
  exact indexAndUpload_mem_remote_of_gen_ok env assignId fms remote0 records hgr id

theorem C1_witness :
    "a-1" ∈ (indexAndUpload exEnv exAssign [fmA, fmB] ["a-old", "c"]).remote ↔
      "a-1" ∈ (indexAndUpload exEnv exAssign [fmA, fmB] ["a-old", "c"]).savedIds :=
  C1_remote_equals_saved exEnv exAssign [fmA, fmB] ["a-old", "c"] (by rfl) "a-1"

/-- C2 as stated claims the bulk upload happens before the enumeration of the
existing identifiers.  On the concrete run of the spec's own example the trace
is browse first, then save, then delete: the first remote call is not an
upload, refuting the claimed order. -/
theorem C2_counterexample :
    (indexAndUpload exEnv exAssign [fmA, fmB] ["a-old", "c"]).ops =
      [RemoteOp.browse, RemoteOp.saveObjects ["a-1"],
        RemoteOp.deleteObjects ["a-old", "c"]] ∧
    RemoteOp.isSave
      ((indexAndUpload exEnv exAssign [fmA, fmB] ["a-old", "c"]).ops.headD
        RemoteOp.browse) = false := by
  constructor <;> rfl

/-- C2 amended: the driver first enumerates all identifiers currently present
in the remote index, then uploads all collected records in bulk, and finally
bulk-deletes the set difference (existing minus newly uploaded) unless that
difference is empty. -/
theorem C2_amended_remote_call_order (env : Env) (assignId : AlgoliaRecord → String)
    (fms : List FrontMatter) (remote0 : List String)
    (h : (indexAndUpload env assignId fms remote0).result = .ok ()) :
    (indexAndUpload env assignId fms remote0).ops =
      [RemoteOp.browse,
        RemoteOp.saveObjects (indexAndUpload env assignId fms remote0).savedIds] ∨
    (indexAndUpload env assignId fms remote0).ops =
      [RemoteOp.browse,
        RemoteOp.saveObjects (indexAndUpload env assignId fms remote0).savedIds,
        RemoteOp.deleteObjects (indexAndUpload env assignId fms remote0).staleIds] := by
  rcases gen_ok_of_run_ok env assignId fms remote0 h with ⟨records, hgr⟩
  rw [indexAndUpload_ops_of_gen_ok env assignId fms remote0 records hgr,
    indexAndUpload_savedIds_of_gen_ok env assignId fms remote0 records hgr,
    indexAndUpload_staleIds_of_gen_ok env assignId fms remote0 records hgr]
  split
  · exact Or.inl rfl
  · exact Or.inr rfl

theorem C2_amended_witness :
    (indexAndUpload exEnv exAssign [fmA, fmB] ["a-old", "c"]).ops =
      [RemoteOp.browse,
        RemoteOp.saveObjects (indexAndUpload exEnv exAssign [fmA, fmB] ["a-old", "c"]).savedIds] ∨
    (indexAndUpload exEnv exAssign [fmA, fmB] ["a-old", "c"]).ops =
      [RemoteOp.browse,
        RemoteOp.saveObjects (indexAndUpload exEnv exAssign [fmA, fmB] ["a-old", "c"]).savedIds,
        RemoteOp.deleteObjects (indexAndUpload exEnv exAssign [fmA, fmB] ["a-old", "c"]).staleIds] :=
  C2_amended_remote_call_order exEnv exAssign [fmA, fmB] ["a-old", "c"] (by rfl)

/-- C3: with the skip-on-error flag disabled, a failing document (such as one
with a missing HTML artifact) aborts the whole run before any remote call: the
remote-call trace is empty, so nothing is uploaded and nothing is deleted, and
the remote index is unchanged. -/
theorem C3_error_aborts_run (env : Env) (assignId : AlgoliaRecord → String)
    (fms : List FrontMatter) (remote0 : List String) (fm : FrontMatter)
    (hskip : env.skipOnError = false) (hmem : fm ∈ fms) (helig : eligible fm = true)
    (hfail : docFails env fm = true) :
    (∃ e, (indexAndUpload env assignId fms remote0).result = .error e) ∧
    (indexAndUpload env assignId fms remote0).ops = [] ∧
    (indexAndUpload env assignId fms remote0).remote = remote0 := by
  rcases gen_error_of_failing_doc env fms fm hskip hmem helig hfail with ⟨e, hgr⟩
  rw [indexAndUpload_of_gen_error env assignId fms remote0 e hgr]
  exact ⟨⟨e, rfl⟩, rfl, rfl⟩

theorem C3_witness :
    (∃ e, (indexAndUpload exEnv exAssign [fmA, fmC] ["a-old", "c"]).result = .error e) ∧
    (indexAndUpload exEnv exAssign [fmA, fmC] ["a-old", "c"]).ops = [] ∧
    (indexAndUpload exEnv exAssign [fmA, fmC] ["a-old", "c"]).remote = ["a-old", "c"] :=
  C3_error_aborts_run exEnv exAssign [fmA, fmC] ["a-old", "c"] fmC rfl (by decide) rfl rfl

/-- C4: with the skip-on-error flag enabled, a failing document contributes
zero records, the error is logged to the console (never silently dropped), the
run still succeeds, and the records of the remaining documents are the ones
uploaded. -/
theorem C4_skip_logs_and_uploads_rest (env : Env) (assignId : AlgoliaRecord → String)
    (fms : List FrontMatter) (remote0 : List String) (fm : FrontMatter)
    (hskip : env.skipOnError = true) (hmem : fm ∈ fms) (helig : eligible fm = true)
    (hfail : docFails env fm = true) :
    (getRecords env fm).result = .ok [] ∧
    (∃ msg, LogMsg.errorSkipped fm.slug msg ∈
      (indexAndUpload env assignId fms remote0).logs) ∧
    (indexAndUpload env assignId fms remote0).result = .ok () ∧
    (indexAndUpload env assignId fms remote0).savedIds =
      (((fms.filter eligible).map (docRecords env)).flatten).map assignId := by
  obtain ⟨hok0, msg, hmsg⟩ := getRecords_skip_fails env fm hskip hfail
  have hgr := gen_ok_of_skip env fms hskip
  refine ⟨hok0, ?_, ?_, ?_⟩
  · refine ⟨msg, ?_⟩
    rw [indexAndUpload_logs_eq]
    exact gen_logs_mem env fms fm (List.mem_filter.2 ⟨hmem, helig⟩) hmsg
  · exact indexAndUpload_result_of_gen_ok env assignId fms remote0 _ hgr
  · exact indexAndUpload_savedIds_of_gen_ok env assignId fms remote0 _ hgr

theorem C4_witness :
    (getRecords exEnvSkip fmC).result = .ok [] ∧
    (∃ msg, LogMsg.errorSkipped fmC.slug msg ∈
      (indexAndUpload exEnvSkip exAssign [fmA, fmC] ["a-old", "c"]).logs) ∧
    (indexAndUpload exEnvSkip exAssign [fmA, fmC] ["a-old", "c"]).result = .ok () ∧
    (indexAndUpload exEnvSkip exAssign [fmA, fmC] ["a-old", "c"]).savedIds =
      ((([fmA, fmC].filter eligible).map (docRecords exEnvSkip)).flatten).map exAssign :=
  C4_skip_logs_and_uploads_rest exEnvSkip exAssign [fmA, fmC] ["a-old", "c"] fmC
    rfl (by decide) rfl rfl

/-- C5: a document that is marked draft, marked no-index, or lacks a title is
never passed to the record generator: every document on which the generator is
invoked passes all three checks. -/
theorem C5_filtered_never_generated (env : Env) (fms : List FrontMatter) :
    ∀ fm ∈ (generateAlogliaRecords env fms).genCalls,
      fm.draft = false ∧ fm.noindex = false ∧ truthy fm.title = true := by
  intro fm hfm
  have h := (List.mem_filter.1 (gen_genCalls_sub env fms fm hfm)).2
  simp only [eligible, Bool.and_eq_true, Bool.not_eq_true'] at h
  exact ⟨h.1.1, h.1.2, h.2⟩

theorem C5_witness :
    fmA.draft = false ∧ fmA.noindex = false ∧ truthy fmA.title = true :=
  C5_filtered_never_generated exEnv [fmA, fmB] fmA (by decide)

/-- C6: when the document set contains at least one eligible document with a
present artifact and every eligible document processes successfully, the
record generator is invoked exactly once per eligible document (the invocation
list is the eligible sublist, in order), and the record list handed to the
bulk save is the concatenation of the per-document generator results. -/
theorem C6_generator_once_and_concat (env : Env) (assignId : AlgoliaRecord → String)
    (fms : List FrontMatter) (remote0 : List String)
    (_hne : ∃ fm ∈ fms, eligible fm = true ∧ artifactPresent env fm = true)
    (hall : ∀ fm ∈ fms.filter eligible, docFails env fm = false) :
    (indexAndUpload env assignId fms remote0).genCalls = fms.filter eligible ∧
    (∀ fm ∈ fms.filter eligible,
      ((indexAndUpload env assignId fms remote0).genCalls).count fm =
        (fms.filter eligible).count fm) ∧
    (generateAlogliaRecords env fms).result =
      .ok (((fms.filter eligible).map (docRecords env)).flatten) ∧
    (indexAndUpload env assignId fms remote0).savedIds =
      (((fms.filter eligible).map (docRecords env)).flatten).map assignId := by
  have hgr := gen_result_of_all_ok env fms hall
  have hgc := gen_genCalls_of_all_ok env fms hall
  refine ⟨?_, ?_, hgr, ?_⟩
  · rw [indexAndUpload_genCalls_eq]
    exact hgc
  · intro fm _
    rw [indexAndUpload_genCalls_eq, hgc]
  · exact indexAndUpload_savedIds_of_gen_ok env assignId fms remote0 _ hgr

theorem C6_witness :
    (indexAndUpload exEnv exAssign [fmA, fmB] ["a-old", "c"]).genCalls =
      [fmA, fmB].filter eligible ∧
    (∀ fm ∈ [fmA, fmB].filter eligible,
      ((indexAndUpload exEnv exAssign [fmA, fmB] ["a-old", "c"]).genCalls).count fm =
        ([fmA, fmB].filter eligible).count fm) ∧
    (generateAlogliaRecords exEnv [fmA, fmB]).result =
      .ok ((([fmA, fmB].filter eligible).map (docRecords exEnv)).flatten) ∧
    (indexAndUpload exEnv exAssign [fmA, fmB] ["a-old", "c"]).savedIds =
      ((([fmA, fmB].filter eligible).map (docRecords exEnv)).flatten).map exAssign :=
  C6_generator_once_and_concat exEnv exAssign [fmA, fmB] ["a-old", "c"]
    (by decide) (by decide)

/-- C7: if any of the three required configuration settings (application
identifier, access key, index name) is absent, the script terminates with a
fatal error immediately: the remote client is never constructed, no document
is read (no console output), no remote call happens, and the remote index is
untouched. -/
theorem C7_missing_config_fatal (se : ScriptEnv)
    (h : truthy se.appId = false ∨ truthy se.apiKey = false ∨
      truthy se.indexName = false) :
    (∃ e, (runScript se).result = .error e) ∧
    (runScript se).clientConstructed = false ∧
    (runScript se).ops = [] ∧
    (runScript se).logs = [] ∧
    (runScript se).genCalls = [] ∧
    (runScript se).remote = se.remote0 := by
  unfold runScript
  cases hA : truthy se.appId with
  | false => simp
  | true =>
    cases hK : truthy se.apiKey with
    | false => simp
    | true =>
      cases hI : truthy se.indexName with
      | false => simp
      | true => simp_all

theorem C7_witness :
    (∃ e, (runScript ⟨none, some "key", some "docs", none, exFs, exGen, [fmA],
      exAssign, ["x"]⟩).result = .error e) ∧
    (runScript ⟨none, some "key", some "docs", none, exFs, exGen, [fmA],
      exAssign, ["x"]⟩).clientConstructed = false ∧
    (runScript ⟨none, some "key", some "docs", none, exFs, exGen, [fmA],
      exAssign, ["x"]⟩).ops = [] ∧
    (runScript ⟨none, some "key", some "docs", none, exFs, exGen, [fmA],
      exAssign, ["x"]⟩).logs = [] ∧
    (runScript ⟨none, some "key", some "docs", none, exFs, exGen, [fmA],
      exAssign, ["x"]⟩).genCalls = [] ∧
    (runScript ⟨none, some "key", some "docs", none, exFs, exGen, [fmA],
      exAssign, ["x"]⟩).remote = ["x"] :=
  C7_missing_config_fatal
    ⟨none, some "key", some "docs", none, exFs, exGen, [fmA], exAssign, ["x"]⟩
    (Or.inl rfl)

/-- C8: running the synchronization twice in succession with no change to the
document set is idempotent: the second run succeeds, computes an empty stale
set, performs no delete call, and leaves the remote identifier set exactly as
the first run left it. -/
theorem C8_idempotent (env : Env) (assignId : AlgoliaRecord → String)
    (fms : List FrontMatter) (remote0 : List String)
    (h : (indexAndUpload env assignId fms remote0).result = .ok ()) :
    (indexAndUpload env assignId fms
        (indexAndUpload env assignId fms remote0).remote).result = .ok () ∧
    (indexAndUpload env assignId fms
        (indexAndUpload env assignId fms remote0).remote).staleIds = [] ∧
    (∀ ids, RemoteOp.deleteObjects ids ∉
      (indexAndUpload env assignId fms
        (indexAndUpload env assignId fms remote0).remote).ops) ∧
    (∀ id, id ∈ (indexAndUpload env assignId fms
        (indexAndUpload env assignId fms remote0).remote).remote ↔
      id ∈ (indexAndUpload env assignId fms remote0).remote) := by
  rcases gen_ok_of_run_ok env assignId fms remote0 h with ⟨records, hgr⟩
  have hmem1 := indexAndUpload_mem_remote_of_gen_ok env assignId fms remote0 records hgr
  have hstale2 : (indexAndUpload env assignId fms
      (indexAndUpload env assignId fms remote0).remote).staleIds = [] := by
    rw [indexAndUpload_staleIds_of_gen_ok env assignId fms _ records hgr]
    refine List.filter_eq_nil_iff.2 ?_
    intro id hid
    have : id ∈ records.map assignId := by
      refine (hmem1 id).1 ?_
      simpa [fetchExistingRecordIds, List.mem_dedup] using hid
    simp [this]
  refine ⟨indexAndUpload_result_of_gen_ok env assignId fms _ records hgr, hstale2, ?_, ?_⟩
  · intro ids hids
    rw [indexAndUpload_ops_of_gen_ok env assignId fms _ records hgr] at hids
    have hempty : ((fetchExistingRecordIds
        (indexAndUpload env assignId fms remote0).remote).filter
        (fun id => decide (id ∉ records.map assignId))).isEmpty = true := by
      rw [List.isEmpty_iff]
      have := hstale2
      rwa [indexAndUpload_staleIds_of_gen_ok env assignId fms _ records hgr] at this
    rw [if_pos hempty] at hids
    simp at hids
  · intro id
    rw [indexAndUpload_mem_remote_of_gen_ok env assignId fms _ records hgr id, hmem1 id]

theorem C8_witness :
    (indexAndUpload exEnv exAssign [fmA, fmB]
        (indexAndUpload exEnv exAssign [fmA, fmB] ["a-old", "c"]).remote).result = .ok () ∧
    (indexAndUpload exEnv exAssign [fmA, fmB]
        (indexAndUpload exEnv exAssign [fmA, fmB] ["a-old", "c"]).remote).staleIds = [] ∧
    (∀ ids, RemoteOp.deleteObjects ids ∉
      (indexAndUpload exEnv exAssign [fmA, fmB]
        (indexAndUpload exEnv exAssign [fmA, fmB] ["a-old", "c"]).remote).ops) ∧
    (∀ id, id ∈ (indexAndUpload exEnv exAssign [fmA, fmB]
        (indexAndUpload exEnv exAssign [fmA, fmB] ["a-old", "c"]).remote).remote ↔
      id ∈ (indexAndUpload exEnv exAssign [fmA, fmB] ["a-old", "c"]).remote) :=
  C8_idempotent exEnv exAssign [fmA, fmB] ["a-old", "c"] (by rfl)

/-- C9: if the computed stale set is empty, the driver returns early: the
delete call is never issued and the trace consists of the browse followed by
the single upload. -/
theorem C9_no_delete_when_no_stale (env : Env) (assignId : AlgoliaRecord → String)
    (fms : List FrontMatter) (remote0 : List String)
    (hok : (indexAndUpload env assignId fms remote0).result = .ok ())
    (hstale : (indexAndUpload env assignId fms remote0).staleIds = []) :
    (indexAndUpload env assignId fms remote0).ops =
      [RemoteOp.browse,
        RemoteOp.saveObjects (indexAndUpload env assignId fms remote0).savedIds] ∧
    (∀ ids, RemoteOp.deleteObjects ids ∉ (indexAndUpload env assignId fms remote0).ops) := by
  rcases gen_ok_of_run_ok env assignId fms remote0 hok with ⟨records, hgr⟩
  rw [indexAndUpload_staleIds_of_gen_ok env assignId fms remote0 records hgr] at hstale
  have hempty : ((fetchExistingRecordIds remote0).filter
      (fun id => decide (id ∉ records.map assignId))).isEmpty = true :=
    List.isEmpty_iff.2 hstale
  have hops : (indexAndUpload env assignId fms remote0).ops =
      [RemoteOp.browse, RemoteOp.saveObjects (records.map assignId)] := by
    rw [indexAndUpload_ops_of_gen_ok env assignId fms remote0 records hgr, if_pos hempty]
  refine ⟨?_, ?_⟩
  · rw [hops, indexAndUpload_savedIds_of_gen_ok env assignId fms remote0 records hgr]
  · intro ids hids
    rw [hops] at hids
    simp at hids

theorem C9_witness :
    (indexAndUpload exEnv exAssign [fmA, fmB] []).ops =
      [RemoteOp.browse,
        RemoteOp.saveObjects (indexAndUpload exEnv exAssign [fmA, fmB] []).savedIds] ∧
    (∀ ids, RemoteOp.deleteObjects ids ∉ (indexAndUpload exEnv exAssign [fmA, fmB] []).ops) :=
  C9_no_delete_when_no_stale exEnv exAssign [fmA, fmB] [] (by rfl) (by rfl)

/-- C10: the skip-on-error policy is on exactly when the environment variable
holds the string `"true"`; the flag is not a required setting (the script
proceeds past the configuration checks whatever its value), and when it is
anything else a failing document makes the run fail. -/
theorem C10_skip_flag_semantics (se : ScriptEnv)
    (hreq : truthy se.appId = true ∧ truthy se.apiKey = true ∧
      truthy se.indexName = true) :
    (skipOnErrorFlag se.skipVar = true ↔ se.skipVar = some "true") ∧
    (runScript se).clientConstructed = true ∧
    (se.skipVar ≠ some "true" →
      ∀ fm ∈ se.fms, eligible fm = true →
        docFails ⟨se.fs, se.gen, skipOnErrorFlag se.skipVar⟩ fm = true →
          ∃ e, (runScript se).result = .error e) := by
  obtain ⟨hA, hK, hI⟩ := hreq
  have hclient : (runScript se).clientConstructed = true ∧
      (runScript se).result =
        (indexAndUpload ⟨se.fs, se.gen, skipOnErrorFlag se.skipVar⟩
          se.assignId se.fms se.remote0).result := by
    unfold runScript
    simp [hA, hK, hI]
  refine ⟨by simp [skipOnErrorFlag], hclient.1, ?_⟩
  intro hne fm hmem helig hfail
  have hskip : skipOnErrorFlag se.skipVar = false := by
    simp [skipOnErrorFlag, hne]
  rcases gen_error_of_failing_doc ⟨se.fs, se.gen, skipOnErrorFlag se.skipVar⟩
    se.fms fm hskip hmem helig hfail with ⟨e, hgr⟩
  refine ⟨e, ?_⟩
  rw [hclient.2,
    indexAndUpload_of_gen_error ⟨se.fs, se.gen, skipOnErrorFlag se.skipVar⟩
      se.assignId se.fms se.remote0 e hgr]

theorem C10_witness :
    (skipOnErrorFlag (ScriptEnv.skipVar ⟨some "app", some "key", some "docs", none,
      exFs, exGen, [fmC], exAssign, ["x"]⟩) = true ↔
      ScriptEnv.skipVar ⟨some "app", some "key", some "docs", none,
        exFs, exGen, [fmC], exAssign, ["x"]⟩ = some "true") ∧
    (runScript ⟨some "app", some "key", some "docs", none,
      exFs, exGen, [fmC], exAssign, ["x"]⟩).clientConstructed = true ∧
    (ScriptEnv.skipVar ⟨some "app", some "key", some "docs", none,
        exFs, exGen, [fmC], exAssign, ["x"]⟩ ≠ some "true" →
      ∀ fm ∈ ScriptEnv.fms ⟨some "app", some "key", some "docs", none,
          exFs, exGen, [fmC], exAssign, ["x"]⟩, eligible fm = true →
        docFails ⟨ScriptEnv.fs ⟨some "app", some "key", some "docs", none,
            exFs, exGen, [fmC], exAssign, ["x"]⟩,
          ScriptEnv.gen ⟨some "app", some "key", some "docs", none,
            exFs, exGen, [fmC], exAssign, ["x"]⟩,
          skipOnErrorFlag (ScriptEnv.skipVar ⟨some "app", some "key", some "docs", none,
            exFs, exGen, [fmC], exAssign, ["x"]⟩)⟩ fm = true →
          ∃ e, (runScript ⟨some "app", some "key", some "docs", none,
            exFs, exGen, [fmC], exAssign, ["x"]⟩).result = .error e) :=
  C10_skip_flag_semantics
    ⟨some "app", some "key", some "docs", none, exFs, exGen, [fmC], exAssign, ["x"]⟩
    ⟨rfl, rfl, rfl⟩

end AlgoliaSync
